import Mathlib

/-!
Verification development for the luma conversation-orchestration engine.

Each Python source artifact referenced by the specification is shallowly
embedded as an executable Lean definition: pure functions become Lean
functions, stateful handlers become explicit state passing, fallible code
returns `Except`/`Option`, and external collaborators (the appointment
service, the verification backend, the LLM provider, the `limits` rate
limiter and the langgraph message reducer) are modelled as explicit
function parameters or small state machines, so that every theorem can be
evaluated on concrete inputs.
-/

namespace Luma

/-! ## Data model

Embeds `src/app/models/session.py` (`Session`) and
`src/app/services/appointments.py` (`Appointment`).  Python `datetime`
values are represented by abstract `Nat` timestamps; `patient_id : str | None`
becomes `Option String`. -/

structure Session where
  session_id : String
  patient_id : Option String := none
  verified : Bool := false
  last_activity : Nat := 0
  failed_verification_attempts : Nat := 0
  deriving Repr, DecidableEq

/-- Truthiness of a Python `str | None`: `None` and the empty string are
falsy, every other string is truthy.  Used wherever the source writes
`if not session.patient_id` or `if not state.error`. -/
def optStrTruthy : Option String → Bool
  | none => false
  | some s => !(s == "")

/-- Embeds `Session.set_verified` (src/app/models/session.py lines 40-45):
sets the verified flag and patient id and refreshes `last_activity`. -/
def Session.set_verified (s : Session) (patient_id : String) (now : Nat) : Session :=
  { s with verified := true, patient_id := some patient_id, last_activity := now }

/-- Embeds `Session.increment_failed_attempts` (src/app/models/session.py
lines 47-49). -/
def Session.increment_failed_attempts (s : Session) (now : Nat) : Session :=
  { s with failed_verification_attempts := s.failed_verification_attempts + 1,
           last_activity := now }

structure Appointment where
  id : String
  patient_id : String
  date_time : Nat
  provider : String
  appointment_type : String
  status : String
  location : String
  deriving Repr, DecidableEq

/-! ## Appointment service

Embeds `InMemoryAppointmentService` (src/app/services/appointments.py).
The mutable `self.appointments` list becomes explicit state passing:
each mutating operation returns the updated store. -/

/-- Embeds `InMemoryAppointmentService._find_appointment` (lines 90-95):
first appointment whose patient id and appointment id both match. -/
def find_appointment (store : List Appointment) (patient_id appointment_id : String) :
    Option Appointment :=
  store.find? (fun a => a.patient_id == patient_id && a.id == appointment_id)

/-- Status update applied by the Python code's in-place mutation of the
object returned by `_find_appointment`: exactly the first matching list
element has its `status` field replaced. -/
def setStatusOfFirstMatch (store : List Appointment) (patient_id appointment_id newStatus : String) :
    List Appointment :=
  match store with
  | [] => []
  | a :: rest =>
    if a.patient_id == patient_id && a.id == appointment_id then
      { a with status := newStatus } :: rest
    else
      a :: setStatusOfFirstMatch rest patient_id appointment_id newStatus

/-- Embeds `InMemoryAppointmentService.confirm_appointment` (lines 74-80):
succeeds iff the appointment is found and has status "scheduled", in which
case the status becomes "confirmed". -/
def confirm_appointment (store : List Appointment) (patient_id appointment_id : String) :
    Bool × List Appointment :=
  match find_appointment store patient_id appointment_id with
  | some a =>
    if a.status == "scheduled" then
      (true, setStatusOfFirstMatch store patient_id appointment_id "confirmed")
    else
      (false, store)
  | none => (false, store)

/-- Embeds `InMemoryAppointmentService.cancel_appointment` (lines 82-88). -/
def cancel_appointment (store : List Appointment) (patient_id appointment_id : String) :
    Bool × List Appointment :=
  match find_appointment store patient_id appointment_id with
  | some a =>
    if a.status == "scheduled" || a.status == "confirmed" then
      (true, setStatusOfFirstMatch store patient_id appointment_id "cancelled")
    else
      (false, store)
  | none => (false, store)

/-- Embeds `InMemoryAppointmentService.get_appointments` (lines 70-72):
appointments of the patient whose `date_time` is strictly in the future. -/
def get_appointments (store : List Appointment) (now : Nat) (patient_id : String) :
    List Appointment :=
  store.filter (fun a => a.patient_id == patient_id && now < a.date_time)

/-- Embeds `InMemoryAppointmentService._create_mock_appointments`
(lines 97-156).  The Python code derives concrete `datetime` values from
the current clock; here the computed timestamps are abstracted into a base
time plus the day/hour offsets the code applies (one day ≈ 24 time units,
one hour ≈ 1 unit), which preserves their relative order. -/
def mock_appointments (base : Nat) : List Appointment :=
  [ { id := "APT_001", patient_id := "PATIENT_001", date_time := base + 1 * 24,
      provider := "Dr. Sarah Johnson", appointment_type := "Annual Physical",
      status := "scheduled", location := "Main Clinic - Room 101" },
    { id := "APT_002", patient_id := "PATIENT_001", date_time := base + 7 * 24 + 14,
      provider := "Dr. Mike Chen", appointment_type := "Follow-up",
      status := "scheduled", location := "Main Clinic - Room 205" },
    { id := "APT_003", patient_id := "PATIENT_002", date_time := base + 2 * 24 + 10,
      provider := "Dr. Emily Davis", appointment_type := "Consultation",
      status := "confirmed", location := "West Clinic - Room 301" },
    { id := "APT_004", patient_id := "PATIENT_003", date_time := base + 5 * 24 + 11,
      provider := "Dr. Lisa Brown", appointment_type := "Lab Results Review",
      status := "scheduled", location := "Main Clinic - Room 150" },
    { id := "APT_005", patient_id := "PATIENT_004", date_time := base + 3 * 24 + 15,
      provider := "Dr. Robert Taylor", appointment_type := "Specialist Referral",
      status := "scheduled", location := "East Clinic - Room 402" } ]

/-! ## Protected tool handlers

Embeds the handlers of src/app/tools/list_appointments.py and
src/app/tools/appointment_actions.py.  Each Python handler receives an
`appointment_service` object; here the service is an explicit parameter
(a record of operations over an arbitrary service-state type `σ`), so a
theorem quantifying over the service captures "the underlying service is
never invoked". -/

structure ApptService (σ : Type) where
  get_appointments : σ → String → List Appointment
  confirm_appointment : σ → String → String → Bool × σ
  cancel_appointment : σ → String → String → Bool × σ

/-- Fixed gate text returned by every protected tool while unverified
(src/app/tools/list_appointments.py line 19, appointment_actions.py
lines 28 and 50). -/
def verifyFirstText : String :=
  "Please verify the patient's identity first before accessing appointment information."

/-- Rendering of one appointment in the list output
(src/app/tools/list_appointments.py lines 28-33); the `strftime` date
formatting is abstracted by the `fmt` parameter. -/
def renderAppointment (fmt : Nat → String) (a : Appointment) : String :=
  (if a.status == "confirmed" then "✅" else if a.status == "scheduled" then "📅" else "❌")
    ++ " **" ++ a.id ++ "** - " ++ fmt a.date_time ++ "\n"
    ++ "   Provider: " ++ a.provider ++ "\n"
    ++ "   Type: " ++ a.appointment_type ++ "\n"
    ++ "   Status: " ++ a.status.capitalize ++ "\n"
    ++ "   Location: " ++ a.location ++ "\n\n"

/-- Embeds `list_appointments_handler` (src/app/tools/list_appointments.py
lines 14-36).  Returns the response text and the (unchanged) service
state. -/
def list_appointments_handler {σ : Type} (svc : ApptService σ) (fmt : Nat → String)
    (session : Session) (st : σ) : String × σ :=
  if !session.verified || !optStrTruthy session.patient_id then
    (verifyFirstText, st)
  else
    let appointments := svc.get_appointments st (session.patient_id.getD "")
    if appointments == [] then
      ("The patient has no upcoming appointments scheduled.", st)
    else
      let body := appointments.foldl (fun acc a => acc ++ renderAppointment fmt a)
        "Here are the patient's upcoming appointments:\n\n"
      ((body ++ "The patient can confirm or cancel any scheduled appointment by providing the appointment ID.").trim, st)

/-- Embeds `confirm_appointment_handler`
(src/app/tools/appointment_actions.py lines 23-42). -/
def confirm_appointment_handler {σ : Type} (svc : ApptService σ) (session : Session)
    (appointment_id : String) (st : σ) : String × σ :=
  if !session.verified || !optStrTruthy session.patient_id then
    (verifyFirstText, st)
  else
    let r := svc.confirm_appointment st (session.patient_id.getD "") appointment_id
    if r.1 then
      ("Appointment " ++ appointment_id ++ " has been confirmed successfully!", r.2)
    else
      ("Unable to confirm appointment " ++ appointment_id ++
        ". It may not exist, already be confirmed, or be cancelled.", r.2)

/-- Embeds `cancel_appointment_handler`
(src/app/tools/appointment_actions.py lines 45-61). -/
def cancel_appointment_handler {σ : Type} (svc : ApptService σ) (session : Session)
    (appointment_id : String) (st : σ) : String × σ :=
  if !session.verified || !optStrTruthy session.patient_id then
    (verifyFirstText, st)
  else
    let r := svc.cancel_appointment st (session.patient_id.getD "") appointment_id
    if r.1 then
      ("Appointment " ++ appointment_id ++ " has been cancelled successfully.", r.2)
    else
      ("Unable to cancel appointment " ++ appointment_id ++ ". It may not exist or already be cancelled.", r.2)

/-- In-memory instantiation of the service record, tying the handlers to
`InMemoryAppointmentService` with the appointment list as the state. -/
def inMemoryService (now : Nat) : ApptService (List Appointment) where
  get_appointments := fun st pid => get_appointments st now pid
  confirm_appointment := fun st pid aid => confirm_appointment st pid aid
  cancel_appointment := fun st pid aid => cancel_appointment st pid aid

/-! ## Verify-patient tool handler (src/app/tools/verify_patient.py) -/

structure VerifyPatientInput where
  name : String
  phone : String
  date_of_birth : String
  deriving Repr, DecidableEq

/-- Fixed text of the early return for an already verified session
(src/app/tools/verify_patient.py lines 88-91). -/
def alreadyVerifiedText : String :=
  "You have already been verified. Please use the appointment tools to access your appointment information."

/-- Success text (src/app/tools/verify_patient.py line 103). -/
def verifySuccessText : String :=
  "Identity verified successfully! You can now access your appointment information."

/-- Failure text (src/app/tools/verify_patient.py line 106). -/
def verifyFailureText : String :=
  "Unable to verify your identity. Please check your information and try again."

/-- Embeds `verify_patient_handler` (src/app/tools/verify_patient.py
lines 84-106).  The verification backend is an explicit parameter
`svc : name → phone → dob → Option patient_id`; the handler returns the
response text and the updated session. -/
def verify_patient_handler (svc : String → String → String → Option String)
    (input : VerifyPatientInput) (session : Session) (now : Nat) : String × Session :=
  if session.verified && optStrTruthy session.patient_id then
    (alreadyVerifiedText, session)
  else
    match svc input.name input.phone input.date_of_birth with
    | some patient_id => (verifySuccessText, session.set_verified patient_id now)
    | none => (verifyFailureText, session.increment_failed_attempts now)

/-! ## Theorems for claims C1 and C10 -/

/-- C1: for every session with `verified == false`, invoking any protected
tool handler (`list_appointments`, `confirm_appointment`,
`cancel_appointment`) never calls the underlying appointment service and
always returns the fixed text asking to verify the patient's identity
first; no appointment data is returned and no appointment state changes.
The service is universally quantified (together with its state type), so
the conclusion is independent of any service behaviour, and the returned
state is exactly the input state. -/
theorem protected_tools_gated_when_unverified {σ : Type} (svc : ApptService σ)
    (fmt : Nat → String) (session : Session) (st : σ) (appointment_id : String)
    (h : session.verified = false) :
    list_appointments_handler svc fmt session st = (verifyFirstText, st) ∧
    confirm_appointment_handler svc session appointment_id st = (verifyFirstText, st) ∧
    cancel_appointment_handler svc session appointment_id st = (verifyFirstText, st) := by
  unfold list_appointments_handler confirm_appointment_handler cancel_appointment_handler
  simp [h]

/-- Witness for C1 at a concrete fresh session and the in-memory mock
appointment store. -/
theorem protected_tools_gated_when_unverified_witness :
    list_appointments_handler (inMemoryService 0) (fun _ => "date") { session_id := "s1" }
        (mock_appointments 0) = (verifyFirstText, mock_appointments 0) ∧
    confirm_appointment_handler (inMemoryService 0) { session_id := "s1" } "APT_001"
        (mock_appointments 0) = (verifyFirstText, mock_appointments 0) ∧
    cancel_appointment_handler (inMemoryService 0) { session_id := "s1" } "APT_001"
        (mock_appointments 0) = (verifyFirstText, mock_appointments 0) :=
  protected_tools_gated_when_unverified (inMemoryService 0) (fun _ => "date")
    { session_id := "s1" } (mock_appointments 0) "APT_001" rfl

/-- C10: if a session already has `verified == true` and a patient id
attached, calling the verify-patient handler again returns the fixed
already-verified message, never invokes the verification service (the
service is universally quantified), and leaves every session field
unchanged.  "Attached" is formalized as the Python truthiness test of the
source guard: `patient_id` is some non-empty string. -/
theorem verify_patient_repeat_after_success_noop
    (svc : String → String → String → Option String) (input : VerifyPatientInput)
    (session : Session) (now : Nat) (p : String)
    (hv : session.verified = true) (hp : session.patient_id = some p) (hne : p ≠ "") :
    verify_patient_handler svc input session now = (alreadyVerifiedText, session) := by
  unfold verify_patient_handler
  simp [hv, hp, optStrTruthy, hne]

/-- Witness for C10: a session verified as PATIENT_001 stays untouched even
when the quantified verification backend would report a different patient. -/
theorem verify_patient_repeat_after_success_noop_witness :
    verify_patient_handler (fun _ _ _ => some "PATIENT_002")
        ⟨"John Smith", "555-123-4567", "1980-01-01"⟩
        { session_id := "s1", patient_id := some "PATIENT_001", verified := true } 42
      = (alreadyVerifiedText,
         { session_id := "s1", patient_id := some "PATIENT_001", verified := true }) :=
  verify_patient_repeat_after_success_noop (fun _ _ _ => some "PATIENT_002")
    ⟨"John Smith", "555-123-4567", "1980-01-01"⟩
    { session_id := "s1", patient_id := some "PATIENT_001", verified := true } 42
    "PATIENT_001" rfl rfl (by decide)

/-! ## Theorem for claim C9: confirm_appointment -/

theorem mem_eq_of_length_le_one {α : Type} {l : List α} (hl : l.length ≤ 1)
    {a b : α} (ha : a ∈ l) (hb : b ∈ l) : a = b := by
  match l with
  | [] => cases ha
  | [x] =>
    rw [List.mem_singleton] at ha hb
    rw [ha, hb]
  | x :: y :: t => simp at hl

theorem find_appointment_spec {store : List Appointment} {pid aid : String} {a : Appointment}
    (h : find_appointment store pid aid = some a) :
    a ∈ store ∧ a.patient_id = pid ∧ a.id = aid := by
  have hmem := List.mem_of_find?_eq_some h
  have hp := List.find?_some h
  simp only [Bool.and_eq_true, beq_iff_eq] at hp
  exact ⟨hmem, hp.1, hp.2⟩

theorem setStatus_eq_map {pid aid : String} (ns : String) :
    ∀ (store : List Appointment),
      (store.filter (fun a => a.patient_id == pid && a.id == aid)).length ≤ 1 →
      setStatusOfFirstMatch store pid aid ns =
        store.map (fun a =>
          if a.patient_id = pid ∧ a.id = aid then { a with status := ns } else a) := by
  intro store
  induction store with
  | nil => intro _; rfl
  | cons a rest ih =>
    intro huniq
    by_cases hpa : a.patient_id = pid ∧ a.id = aid
    · have hb : (a.patient_id == pid && a.id == aid) = true := by
        simp [hpa.1, hpa.2]
      have hrestnil : rest.filter (fun b => b.patient_id == pid && b.id == aid) = [] := by
        have h2 : (a :: rest.filter (fun b => b.patient_id == pid && b.id == aid)).length ≤ 1 := by
          simpa [List.filter_cons, hb] using huniq
        simp only [List.length_cons] at h2
        exact List.length_eq_zero.mp (by omega)
      have hnone : ∀ b ∈ rest, ¬(b.patient_id = pid ∧ b.id = aid) := by
        intro b hbmem hbp
        have hbin : b ∈ rest.filter (fun b => b.patient_id == pid && b.id == aid) := by
          rw [List.mem_filter]
          exact ⟨hbmem, by simp [hbp.1, hbp.2]⟩
        rw [hrestnil] at hbin
        cases hbin
      have hmapid : rest.map (fun b =>
          if b.patient_id = pid ∧ b.id = aid then { b with status := ns } else b) = rest := by
        have h1 := List.map_congr_left (l := rest)
          (f := fun b => if b.patient_id = pid ∧ b.id = aid then { b with status := ns } else b)
          (g := id) (fun b hb => by simp [hnone b hb])
        rw [h1, List.map_id]
      simp only [setStatusOfFirstMatch, hb, if_true, List.map_cons, if_pos hpa, hmapid]
    · have hb : (a.patient_id == pid && a.id == aid) = false := by
        rcases Decidable.not_and_iff_or_not.mp hpa with h | h <;> simp [h]
      have hfilter : (a :: rest).filter (fun b => b.patient_id == pid && b.id == aid) =
          rest.filter (fun b => b.patient_id == pid && b.id == aid) :=
        List.filter_cons_of_neg (by rw [hb]; exact Bool.false_ne_true)
      rw [hfilter] at huniq
      simp only [setStatusOfFirstMatch, hb, Bool.false_eq_true, if_false, List.map_cons,
        if_neg hpa, ih huniq]

theorem confirm_fst_eq_true_iff {store : List Appointment} {pid aid : String} :
    (confirm_appointment store pid aid).1 = true ↔
      ∃ a, find_appointment store pid aid = some a ∧ a.status = "scheduled" := by
  unfold confirm_appointment
  cases hf : find_appointment store pid aid with
  | none => simp
  | some a =>
    by_cases hs : a.status = "scheduled"
    · simp [hs]
    · have : (a.status == "scheduled") = false := by simp [hs]
      simp [this, hs]

theorem confirm_snd_of_fst_false {store : List Appointment} {pid aid : String}
    (h : (confirm_appointment store pid aid).1 = false) :
    (confirm_appointment store pid aid).2 = store := by
  unfold confirm_appointment at h ⊢
  cases hf : find_appointment store pid aid with
  | none => simp [hf]
  | some a =>
    simp only [hf] at h ⊢
    by_cases hs : (a.status == "scheduled") = true
    · simp [hs] at h
    · simp [hs]

/-- C9: for a verified patient, `confirm_appointment(patient_id,
appointment_id)` succeeds iff an appointment with that id belongs to that
patient and its status is "scheduled", in which case exactly that
appointment's status becomes "confirmed" and every other appointment is
untouched; any failing call leaves the store unchanged, and a second
identical call on the now-confirmed appointment fails and changes
nothing.  The hypothesis states that the `(patient_id, appointment_id)`
pair identifies at most one stored appointment, which holds of the mock
data and of any store with unique appointment ids. -/
theorem confirm_appointment_correct (store : List Appointment) (pid aid : String)
    (huniq : (store.filter (fun a => a.patient_id == pid && a.id == aid)).length ≤ 1) :
    ((confirm_appointment store pid aid).1 = true ↔
      ∃ a ∈ store, a.patient_id = pid ∧ a.id = aid ∧ a.status = "scheduled") ∧
    ((confirm_appointment store pid aid).1 = false →
      (confirm_appointment store pid aid).2 = store) ∧
    ((confirm_appointment store pid aid).1 = true →
      (confirm_appointment store pid aid).2 =
        store.map (fun a =>
          if a.patient_id = pid ∧ a.id = aid then { a with status := "confirmed" } else a) ∧
      confirm_appointment (confirm_appointment store pid aid).2 pid aid =
        (false, (confirm_appointment store pid aid).2)) := by
  refine ⟨?_, fun h => confirm_snd_of_fst_false h, ?_⟩
  · rw [confirm_fst_eq_true_iff]
    constructor
    · rintro ⟨a, hfind, hs⟩
      obtain ⟨hmem, hp, hi⟩ := find_appointment_spec hfind
      exact ⟨a, hmem, hp, hi, hs⟩
    · rintro ⟨a, hmem, hp, hi, hs⟩
      have hsome : (find_appointment store pid aid).isSome := by
        rw [find_appointment, List.find?_isSome]
        exact ⟨a, hmem, by simp [hp, hi]⟩
      obtain ⟨b, hb⟩ := Option.isSome_iff_exists.mp hsome
      obtain ⟨hbmem, hbp, hbi⟩ := find_appointment_spec hb
      have hfa : a ∈ store.filter (fun x => x.patient_id == pid && x.id == aid) := by
        rw [List.mem_filter]; exact ⟨hmem, by simp [hp, hi]⟩
      have hfb : b ∈ store.filter (fun x => x.patient_id == pid && x.id == aid) := by
        rw [List.mem_filter]; exact ⟨hbmem, by simp [hbp, hbi]⟩
      have hba : b = a := mem_eq_of_length_le_one huniq hfb hfa
      exact ⟨b, hb, hba ▸ hs⟩
  · intro htrue
    rw [confirm_fst_eq_true_iff] at htrue
    obtain ⟨a, hfind, hs⟩ := htrue
    have hsnd : (confirm_appointment store pid aid).2 =
        setStatusOfFirstMatch store pid aid "confirmed" := by
      unfold confirm_appointment
      rw [hfind]
      simp [hs]
    have hmap := @setStatus_eq_map pid aid "confirmed" store huniq
    refine ⟨hsnd.trans hmap, ?_⟩
    have hpredf : (fun x : Appointment => x.patient_id == pid && x.id == aid) ∘
        (fun a : Appointment =>
          if a.patient_id = pid ∧ a.id = aid then { a with status := "confirmed" } else a) =
        (fun x : Appointment => x.patient_id == pid && x.id == aid) := by
      funext x
      by_cases hx : x.patient_id = pid ∧ x.id = aid <;> simp [hx]
    have hfind2 : find_appointment (confirm_appointment store pid aid).2 pid aid =
        some { a with status := "confirmed" } := by
      rw [hsnd.trans hmap]
      unfold find_appointment
      rw [List.find?_map, hpredf]
      unfold find_appointment at hfind
      rw [hfind, Option.map_some']
      obtain ⟨_, hp, hi⟩ := find_appointment_spec hfind
      rw [if_pos ⟨hp, hi⟩]
    generalize hC : (confirm_appointment store pid aid).2 = s2 at hfind2 ⊢
    unfold confirm_appointment
    rw [hfind2]
    simp

/-- Witness for C9: the mock store at base time 0, PATIENT_001, APT_001.
The first call succeeds and sets exactly APT_001 to "confirmed"; the
second identical call fails and changes nothing. -/
theorem confirm_appointment_correct_witness :
    ((confirm_appointment (mock_appointments 0) "PATIENT_001" "APT_001").1 = true ↔
      ∃ a ∈ mock_appointments 0, a.patient_id = "PATIENT_001" ∧ a.id = "APT_001" ∧
        a.status = "scheduled") ∧
    ((confirm_appointment (mock_appointments 0) "PATIENT_001" "APT_001").1 = false →
      (confirm_appointment (mock_appointments 0) "PATIENT_001" "APT_001").2 =
        mock_appointments 0) ∧
    ((confirm_appointment (mock_appointments 0) "PATIENT_001" "APT_001").1 = true →
      (confirm_appointment (mock_appointments 0) "PATIENT_001" "APT_001").2 =
        (mock_appointments 0).map (fun a =>
          if a.patient_id = "PATIENT_001" ∧ a.id = "APT_001" then
            { a with status := "confirmed" } else a) ∧
      confirm_appointment (confirm_appointment (mock_appointments 0) "PATIENT_001" "APT_001").2
          "PATIENT_001" "APT_001" =
        (false, (confirm_appointment (mock_appointments 0) "PATIENT_001" "APT_001").2)) :=
  confirm_appointment_correct (mock_appointments 0) "PATIENT_001" "APT_001" (by decide)

/-! ## Verification service (src/app/services/verification.py)

String normalization is embedded over `List Char` with executable
helpers so every theorem can be settled by evaluation.  `pyReplace`
models Python `str.replace` (left-to-right, non-overlapping literal
substitution; every call site uses a non-empty pattern).  Python
`str.strip` is modelled by `stripChars` over the ASCII whitespace set,
`str.lower` by `Char.toLower` (the embedded names are ASCII), and
`str.isdigit` by `Char.isDigit`. -/

def replaceFuel {α : Type} [DecidableEq α] (pat repl : List α) : Nat → List α → List α
  | _, [] => []
  | 0, l => l
  | fuel+1, a :: rest =>
    if pat ≠ [] && pat.isPrefixOf (a :: rest) then
      repl ++ replaceFuel pat repl fuel ((a :: rest).drop pat.length)
    else
      a :: replaceFuel pat repl fuel rest

def pyReplace (s pat repl : String) : String :=
  if pat = "" then s
  else String.mk (replaceFuel pat.toList repl.toList s.toList.length s.toList)

def pyIsSpace (c : Char) : Bool :=
  c == ' ' || c == Char.ofNat 9 || c == Char.ofNat 10 || c == Char.ofNat 13 ||
    c == Char.ofNat 11 || c == Char.ofNat 12

def stripChars (l : List Char) : List Char :=
  ((l.dropWhile pyIsSpace).reverse.dropWhile pyIsSpace).reverse

def pyStrip (s : String) : String := String.mk (stripChars s.toList)

def pyLower (s : String) : String := String.mk (s.toList.map Char.toLower)

/-- Embeds the name step of `VerificationInfo.get_lookup_hash`
(src/app/services/verification.py line 21):
`self.name.lower().strip().replace(r"[^a-zA-Z ]", "").replace(" ", "_")`.
The second call is Python `str.replace`, so it substitutes the literal
ten-character substring, not a regular-expression character class. -/
def normalizedName (name : String) : String :=
  pyReplace (pyReplace (pyStrip (pyLower name)) "[^a-zA-Z ]" "") " " "_"

/-- Embeds the phone step of `get_lookup_hash` (line 22):
`"".join(filter(str.isdigit, self.phone))[-10:]`. -/
def normalizedPhone (phone : String) : String :=
  let ds := phone.toList.filter Char.isDigit
  String.mk (ds.drop (ds.length - 10))

/-- Embeds the date step of `get_lookup_hash` (line 23):
`self.date_of_birth.replace("/", "-").replace(".", "-")`. -/
def normalizedDob (dob : String) : String :=
  pyReplace (pyReplace dob "/" "-") "." "-"

/-- Embeds the lookup string of `get_lookup_hash` (line 26):
`f"{normalized_name}_{normalized_phone}_{normalized_dob}"`. -/
def lookupString (name phone dob : String) : String :=
  normalizedName name ++ "_" ++ normalizedPhone phone ++ "_" ++ normalizedDob dob

/-- Embeds `VerificationInfo.get_lookup_hash` (lines 18-29).  The SHA-256
digest truncated to 16 hex characters is an opaque pure function of the
lookup string; it is an explicit parameter `h` so that every statement
holds for the actual digest. -/
def get_lookup_hash (h : String → String) (name phone dob : String) : String :=
  h (lookupString name phone dob)

structure Patient where
  id : String
  name : String
  phone : String
  date_of_birth : String
  deriving Repr, DecidableEq

/-- Embeds `HardcodedVerificationService.TEST_PATIENTS` (lines 60-65). -/
def TEST_PATIENTS : List Patient :=
  [ ⟨"PATIENT_001", "John Smith", "555-123-4567", "1980-01-01"⟩,
    ⟨"PATIENT_002", "Jane Doe", "555-987-6543", "1985-05-15"⟩,
    ⟨"PATIENT_003", "Mike Johnson", "555-555-1234", "1975-12-25"⟩,
    ⟨"PATIENT_004", "Sarah Wilson", "555-444-3333", "1990-08-30"⟩ ]

/-- Embeds `HardcodedVerificationService.__init__` (lines 67-78): the
lookup table maps each test patient's hash to the patient, built with the
same normalization and digest. -/
def verification_lookup (h : String → String) : List (String × Patient) :=
  TEST_PATIENTS.map (fun p => (get_lookup_hash h p.name p.phone p.date_of_birth, p))

/-- Python `dict` lookup: on duplicate keys the last insertion wins, so
the reversed association list is searched. -/
def dictGet (entries : List (String × Patient)) (k : String) : Option Patient :=
  (entries.reverse.find? (fun e => e.1 == k)).map (fun e => e.2)

/-- Embeds `HardcodedVerificationService.verify_patient` (lines 80-100). -/
def hardcoded_verify_patient (h : String → String) (name phone dob : String) : Option String :=
  (dictGet (verification_lookup h) (get_lookup_hash h name phone dob)).map (fun p => p.id)

/-- Modelled from the spec: the claimed name normalization ("trimmed,
case-folded and restricted to letters/spaces/hyphens/apostrophes/periods"),
with the same space-to-underscore joining as the code, for comparison
against the source's `normalizedName`. -/
def specRestrictedName (name : String) : String :=
  pyReplace (String.mk ((pyStrip (pyLower name)).toList.filter
    (fun c => c.isAlpha || c == ' ' || c == '-' || c == Char.ofNat 39 || c == '.'))) " " "_"

/-- Modelled from the spec: the lookup concatenation as the claim
describes it, using the claimed character-restricted name normalization. -/
def specLookupString (name phone dob : String) : String :=
  specRestrictedName name ++ "_" ++ normalizedPhone phone ++ "_" ++ normalizedDob dob

/-- Counterexample for C7: the claim states the key is computed by
normalizing the name "restricted to letters/spaces/hyphens/apostrophes/
periods".  The source's `str.replace(r"[^a-zA-Z ]", "")` is a literal
substring replacement, not a character-class deletion, so the character
'@' survives normalization and the hashed lookup string differs from the
claimed one at this input (hence so do the SHA-256 keys). -/
theorem lookup_hash_restriction_counterexample :
    lookupString "John@ Smith" "555-123-4567" "1980-01-01" =
      "john@_smith_5551234567_1980-01-01" ∧
    specLookupString "John@ Smith" "555-123-4567" "1980-01-01" =
      "john_smith_5551234567_1980-01-01" ∧
    lookupString "John@ Smith" "555-123-4567" "1980-01-01" ≠
      specLookupString "John@ Smith" "555-123-4567" "1980-01-01" := by
  decide

/-- C7 (amended): the lookup key is a pure, deterministic function of the
normalized fields: whenever two inputs have equal normalized names (case,
surrounding whitespace and space-joining collapse), equal last-10-digit
phones and equal separator-normalized dates of birth, they produce the
same lookup key and the hardcoded verification service resolves them to
the same patient record, for every digest function `h`. -/
theorem lookup_hash_normalization_invariance (h : String → String)
    (n1 n2 p1 p2 d1 d2 : String)
    (hn : normalizedName n1 = normalizedName n2)
    (hp : normalizedPhone p1 = normalizedPhone p2)
    (hd : normalizedDob d1 = normalizedDob d2) :
    get_lookup_hash h n1 p1 d1 = get_lookup_hash h n2 p2 d2 ∧
    hardcoded_verify_patient h n1 p1 d1 = hardcoded_verify_patient h n2 p2 d2 := by
  have hls : lookupString n1 p1 d1 = lookupString n2 p2 d2 := by
    unfold lookupString
    rw [hn, hp, hd]
  constructor
  · unfold get_lookup_hash
    rw [hls]
  · unfold hardcoded_verify_patient get_lookup_hash
    rw [hls]

/-- Witness for C7: inputs differing only in letter case, surrounding
whitespace, phone separators and date separators produce the same key and
the same verification outcome (instantiated at the identity digest). -/
theorem lookup_hash_normalization_invariance_witness :
    get_lookup_hash id "  JOHN SMITH " "(555) 123-4567" "1980/01/01" =
      get_lookup_hash id "John Smith" "555-123-4567" "1980-01-01" ∧
    hardcoded_verify_patient id "  JOHN SMITH " "(555) 123-4567" "1980/01/01" =
      hardcoded_verify_patient id "John Smith" "555-123-4567" "1980-01-01" :=
  lookup_hash_normalization_invariance id "  JOHN SMITH " "John Smith"
    "(555) 123-4567" "555-123-4567" "1980/01/01" "1980-01-01"
    (by decide) (by decide) (by decide)

/-! ## Token estimation, validation and truncation
(src/app/clients/anthropic.py) -/

/-- Embeds the tokenizer fallback of `estimate_message_tokens`
(src/app/clients/anthropic.py lines 312-325): with no tokenizer available
the estimate is `len(message) // 4`.  The tiktoken path is a pluggable
estimator; theorems quantifying over an estimator take a parameter
`est : String → Nat`. -/
def estimateFallback (message : String) : Nat := message.length / 4

/-- Embeds `validate_message_tokens` (src/app/clients/anthropic.py
lines 327-340) over an arbitrary estimator: signals a ValueError iff the
estimate exceeds the per-message ceiling. -/
def validate_message_tokens (est : String → Nat) (max_message_tokens : Nat)
    (message : String) : Except String Unit :=
  if est message > max_message_tokens then
    Except.error "Message exceeds token limit"
  else
    Except.ok ()

structure ConversationMessage where
  role : String
  content : String
  deriving Repr, DecidableEq

/-- Embeds the inbound-message handling of
`ConversationService.process_message` (src/app/services/conversation.py
lines 27-71): `session.add_message("user", message)` appends the user
message to the session history unconditionally, before the agent loop
runs.  The method body contains no call to `validate_message_tokens`,
although the repository's own tests
(src/tests/test_token_limits.py lines 138-150) assert that it is called
once per inbound message and re-raised as a ValueError. -/
def process_message_history (history : List ConversationMessage) (message : String) :
    List ConversationMessage :=
  history ++ [⟨"user", message⟩]

def oversizedMessage : String := String.mk (List.replicate 8004 'a')

/-- C3, code bug: `validate_message_tokens` itself does signal a
ValueError exactly when the estimate exceeds `max_message_tokens` (third
conjunct, for every estimator and ceiling), and the 8004-character message
estimates to 2001 > 2000 tokens and is rejected by it under the default
configuration (first two conjuncts); but `ConversationService.process_message`
never invokes the validator and appends the oversized message to the
conversation anyway (last conjunct), contradicting the repository's own
tests. -/
theorem validate_not_called_by_process_message :
    estimateFallback oversizedMessage = 2001 ∧
    validate_message_tokens estimateFallback 2000 oversizedMessage =
      Except.error "Message exceeds token limit" ∧
    (∀ (est : String → Nat) (maxTok : Nat) (m : String),
      (validate_message_tokens est maxTok m = Except.ok ()) ↔ est m ≤ maxTok) ∧
    process_message_history [] oversizedMessage = [⟨"user", oversizedMessage⟩] := by
  have hest : estimateFallback oversizedMessage = 2001 := by
    have hlen : oversizedMessage.length = 8004 := by
      show (List.replicate 8004 'a').length = 8004
      rw [List.length_replicate]
    unfold estimateFallback
    rw [hlen]
  refine ⟨hest, ?_, ?_, rfl⟩
  · unfold validate_message_tokens
    rw [hest]
    simp
  · intro est maxTok m
    unfold validate_message_tokens
    by_cases hgt : est m > maxTok
    · rw [if_pos hgt]
      constructor
      · intro h
        exact Except.noConfusion h
      · intro h
        omega
    · rw [if_neg hgt]
      constructor
      · intro _
        omega
      · intro _
        rfl

/-! ## Conversation truncation (src/app/clients/anthropic.py lines 342-398)

`AnthropicMessage.content` is either a string or a list of content
blocks.  The truncation loop only counts text from list items that are
dicts containing a "text" key; a block item is modelled as
`Option String` (`some t` for a dict with text `t`, `none` for any other
item — at runtime the items are pydantic models, hence `none`). -/

inductive AMsgContent where
  | str (s : String)
  | blocks (items : List (Option String))
  deriving Repr, DecidableEq

structure AnthropicMessage where
  role : String
  content : AMsgContent
  deriving Repr, DecidableEq

structure AnthropicTool where
  name : String
  description : String
  input_schema_str : String
  deriving Repr, DecidableEq

/-- Per-message token estimate as computed inside `truncate_conversation`
(lines 375-383): the estimator applied to the string content, or to the
concatenation of the "text" fields of dict items for list content. -/
def messageTokens (est : String → Nat) (m : AnthropicMessage) : Nat :=
  match m.content with
  | AMsgContent.str s => est s
  | AMsgContent.blocks items => est ((items.filterMap id).foldl (fun acc t => acc ++ t) "")

/-- Tool-schema token estimate as computed in `truncate_conversation`
(lines 362-367): zero for an absent/empty tool list, otherwise the
estimator applied to the concatenation `name + description + str(schema)`
over all tools. -/
def toolTokens (est : String → Nat) (tools : List AnthropicTool) : Nat :=
  if tools = [] then 0
  else est (tools.foldl (fun acc t => acc ++ t.name ++ t.description ++ t.input_schema_str) "")

/-- Sum of the per-message estimates of a message list. -/
def sumTokens (est : String → Nat) (l : List AnthropicMessage) : Nat :=
  (l.map (messageTokens est)).sum

/-- Greedy accumulation loop of `truncate_conversation` (lines 371-390),
operating on the reversed message list: keep a message while the running
total stays within `avail`, stop at the first message that does not fit.
`avail` and the accumulator are integers because the available budget can
be negative in Python. -/
def truncAux (est : String → Nat) (avail : Int) :
    List AnthropicMessage → Int → List AnthropicMessage
  | [], _ => []
  | m :: rest, cur =>
    if cur + (messageTokens est m : Int) ≤ avail then
      m :: truncAux est avail rest (cur + (messageTokens est m : Int))
    else
      []

/-- Embeds `truncate_conversation` (src/app/clients/anthropic.py
lines 342-398). -/
def truncate_conversation (est : String → Nat) (max_conversation_tokens token_headroom : Nat)
    (messages : List AnthropicMessage) (system_prompt : String)
    (tools : List AnthropicTool) : List AnthropicMessage :=
  if messages = [] then messages
  else
    let avail : Int := (max_conversation_tokens : Int) - (token_headroom : Int) -
      (est system_prompt : Int) - (toolTokens est tools : Int)
    (truncAux est avail messages.reverse 0).reverse

theorem truncAux_prefixOf (est : String → Nat) (avail : Int) :
    ∀ (l : List AnthropicMessage) (cur : Int), truncAux est avail l cur <+: l := by
  intro l
  induction l with
  | nil => intro cur; exact List.prefix_refl _
  | cons m rest ih =>
    intro cur
    unfold truncAux
    by_cases hc : cur + (messageTokens est m : Int) ≤ avail
    · rw [if_pos hc]
      exact (List.cons_prefix_cons).mpr ⟨rfl, ih (cur + (messageTokens est m : Int))⟩
    · rw [if_neg hc]
      exact List.nil_prefix

theorem truncAux_sum_le (est : String → Nat) (avail : Int) :
    ∀ (l : List AnthropicMessage) (cur : Int), cur ≤ avail →
      cur + (sumTokens est (truncAux est avail l cur) : Int) ≤ avail := by
  intro l
  induction l with
  | nil => intro cur hcur; simpa [truncAux, sumTokens] using hcur
  | cons m rest ih =>
    intro cur hcur
    unfold truncAux
    by_cases hc : cur + (messageTokens est m : Int) ≤ avail
    · rw [if_pos hc]
      have h2 := ih (cur + (messageTokens est m : Int)) hc
      simp only [sumTokens, List.map_cons, List.sum_cons] at h2 ⊢
      push_cast at h2 ⊢
      omega
    · rw [if_neg hc]
      simpa [sumTokens] using hcur

theorem truncAux_maximal (est : String → Nat) (avail : Int) :
    ∀ (l p : List AnthropicMessage) (cur : Int), p <+: l →
      cur + (sumTokens est p : Int) ≤ avail →
      p.length ≤ (truncAux est avail l cur).length := by
  intro l
  induction l with
  | nil =>
    intro p cur hp _
    rw [List.prefix_nil.mp hp]
    exact Nat.le_refl _
  | cons m rest ih =>
    intro p cur hp hsum
    match p with
    | [] => exact Nat.zero_le _
    | q :: p' =>
      obtain ⟨hqm, hp'⟩ := List.cons_prefix_cons.mp hp
      subst hqm
      have hsplit : sumTokens est (q :: p') = messageTokens est q + sumTokens est p' := by
        simp [sumTokens]
      rw [hsplit] at hsum
      push_cast at hsum
      have hmt : cur + (messageTokens est q : Int) ≤ avail := by
        have hnn : (0 : Int) ≤ (sumTokens est p' : Int) := Int.natCast_nonneg _
        omega
      unfold truncAux
      rw [if_pos hmt]
      simp only [List.length_cons, Nat.succ_le_succ_iff]
      refine ih p' (cur + (messageTokens est q : Int)) hp' ?_
      omega

/-- C2 (amended): provided the fixed overhead
`estimate(system) + estimate(tools) + token_headroom` itself fits within
`max_conversation_tokens`, `truncate_conversation` returns a contiguous,
order-preserved suffix of the message list whose estimated token sum plus
the overhead is at most `max_conversation_tokens`; that suffix is the
longest suffix with this property (so only a prefix of older messages is
dropped); and if the whole conversation fits, the list is returned
unchanged. -/
theorem truncate_conversation_correct (est : String → Nat)
    (maxConv headroom : Nat) (messages : List AnthropicMessage)
    (system_prompt : String) (tools : List AnthropicTool)
    (hfit : est system_prompt + toolTokens est tools + headroom ≤ maxConv) :
    truncate_conversation est maxConv headroom messages system_prompt tools <:+ messages ∧
    sumTokens est (truncate_conversation est maxConv headroom messages system_prompt tools) +
      est system_prompt + toolTokens est tools + headroom ≤ maxConv ∧
    (∀ t, t <:+ messages →
      sumTokens est t + est system_prompt + toolTokens est tools + headroom ≤ maxConv →
      t.length ≤
        (truncate_conversation est maxConv headroom messages system_prompt tools).length) ∧
    (sumTokens est messages + est system_prompt + toolTokens est tools + headroom ≤ maxConv →
      truncate_conversation est maxConv headroom messages system_prompt tools = messages) := by
  by_cases hnil : messages = []
  · subst hnil
    refine ⟨List.suffix_refl _, ?_, ?_, fun _ => rfl⟩
    · simpa [truncate_conversation, sumTokens] using hfit
    · intro t ht _
      rw [List.suffix_nil.mp ht]
      exact Nat.le_refl _
  · have havail : (0 : Int) ≤ (maxConv : Int) - (headroom : Int) -
        (est system_prompt : Int) - (toolTokens est tools : Int) := by
      omega
    have heq : truncate_conversation est maxConv headroom messages system_prompt tools =
        (truncAux est ((maxConv : Int) - (headroom : Int) - (est system_prompt : Int) -
          (toolTokens est tools : Int)) messages.reverse 0).reverse := by
      unfold truncate_conversation
      rw [if_neg hnil]
    have hsuffix : truncate_conversation est maxConv headroom messages system_prompt tools <:+
        messages := by
      rw [heq]
      have hpre := truncAux_prefixOf est ((maxConv : Int) - (headroom : Int) -
        (est system_prompt : Int) - (toolTokens est tools : Int)) messages.reverse 0
      have h2 := List.reverse_suffix.mpr hpre
      rwa [List.reverse_reverse] at h2
    refine ⟨hsuffix, ?_, ?_, ?_⟩
    · have hsum := truncAux_sum_le est ((maxConv : Int) - (headroom : Int) -
        (est system_prompt : Int) - (toolTokens est tools : Int)) messages.reverse 0 havail
      rw [heq]
      have hrev : sumTokens est (truncAux est ((maxConv : Int) - (headroom : Int) -
          (est system_prompt : Int) - (toolTokens est tools : Int))
          messages.reverse 0).reverse =
          sumTokens est (truncAux est ((maxConv : Int) - (headroom : Int) -
          (est system_prompt : Int) - (toolTokens est tools : Int)) messages.reverse 0) := by
        simp [sumTokens, List.map_reverse, List.sum_reverse]
      rw [hrev]
      omega
    · intro t ht hsum
      have hrevpre : t.reverse <+: messages.reverse := List.reverse_prefix.mpr ht
      have hsumrev : sumTokens est t.reverse = sumTokens est t := by
        simp [sumTokens, List.map_reverse, List.sum_reverse]
      have hmax := truncAux_maximal est ((maxConv : Int) - (headroom : Int) -
        (est system_prompt : Int) - (toolTokens est tools : Int)) messages.reverse
        t.reverse 0 hrevpre (by rw [hsumrev]; omega)
      rw [heq]
      simpa using hmax
    · intro hall
      have hlen : messages.length ≤
          (truncate_conversation est maxConv headroom messages system_prompt tools).length := by
        have hrevpre : messages.reverse <+: messages.reverse := List.prefix_refl _
        have hsumrev : sumTokens est messages.reverse = sumTokens est messages := by
          simp [sumTokens, List.map_reverse, List.sum_reverse]
        have hmax := truncAux_maximal est ((maxConv : Int) - (headroom : Int) -
          (est system_prompt : Int) - (toolTokens est tools : Int)) messages.reverse
          messages.reverse 0 hrevpre (by rw [hsumrev]; omega)
        rw [heq]
        simpa using hmax
      exact hsuffix.eq_of_length (Nat.le_antisymm hsuffix.length_le hlen)

/-- Counterexample for C2: under the fallback estimator with
`max_conversation_tokens = 5` and `token_headroom = 0`, a 32-character
system prompt alone estimates to 8 tokens, so no suffix of the
single-message conversation (not even the empty one) satisfies the
claimed budget; the code still returns the empty suffix, whose estimated
sum plus overhead exceeds the limit, so the claimed bound on the returned
suffix is false as stated. -/
theorem truncate_conversation_budget_counterexample :
    truncate_conversation estimateFallback 5 0
      [⟨"user", AMsgContent.str "hi"⟩] "aaaaaaaaaaaaaaaaaaaaaaaaaaaaaaaa" [] = [] ∧
    ¬(sumTokens estimateFallback [] + estimateFallback "aaaaaaaaaaaaaaaaaaaaaaaaaaaaaaaa" +
        toolTokens estimateFallback [] + 0 ≤ 5) := by
  constructor
  · decide
  · decide

/-- Witness for C2 at the fallback estimator: a three-message conversation
against a budget that only affords the last two messages. -/
theorem truncate_conversation_correct_witness :
    (truncate_conversation estimateFallback 30 4
        [⟨"user", AMsgContent.str "aaaaaaaaaaaaaaaaaaaaaaaaaaaaaaaaaaaaaaaa"⟩,
         ⟨"assistant", AMsgContent.str "bbbbbbbbbbbbbbbbbbbbbbbb"⟩,
         ⟨"user", AMsgContent.str "cccccccccccccccc"⟩] "ssssssssssssssss" [] <:+
      [⟨"user", AMsgContent.str "aaaaaaaaaaaaaaaaaaaaaaaaaaaaaaaaaaaaaaaa"⟩,
       ⟨"assistant", AMsgContent.str "bbbbbbbbbbbbbbbbbbbbbbbb"⟩,
       ⟨"user", AMsgContent.str "cccccccccccccccc"⟩]) ∧
    sumTokens estimateFallback (truncate_conversation estimateFallback 30 4
        [⟨"user", AMsgContent.str "aaaaaaaaaaaaaaaaaaaaaaaaaaaaaaaaaaaaaaaa"⟩,
         ⟨"assistant", AMsgContent.str "bbbbbbbbbbbbbbbbbbbbbbbb"⟩,
         ⟨"user", AMsgContent.str "cccccccccccccccc"⟩] "ssssssssssssssss" []) +
      estimateFallback "ssssssssssssssss" + toolTokens estimateFallback [] + 4 ≤ 30 ∧
    (∀ t, t <:+
      [⟨"user", AMsgContent.str "aaaaaaaaaaaaaaaaaaaaaaaaaaaaaaaaaaaaaaaa"⟩,
       ⟨"assistant", AMsgContent.str "bbbbbbbbbbbbbbbbbbbbbbbb"⟩,
       ⟨"user", AMsgContent.str "cccccccccccccccc"⟩] →
      sumTokens estimateFallback t + estimateFallback "ssssssssssssssss" +
        toolTokens estimateFallback [] + 4 ≤ 30 →
      t.length ≤ (truncate_conversation estimateFallback 30 4
        [⟨"user", AMsgContent.str "aaaaaaaaaaaaaaaaaaaaaaaaaaaaaaaaaaaaaaaa"⟩,
         ⟨"assistant", AMsgContent.str "bbbbbbbbbbbbbbbbbbbbbbbb"⟩,
         ⟨"user", AMsgContent.str "cccccccccccccccc"⟩] "ssssssssssssssss" []).length) ∧
    (sumTokens estimateFallback
        [⟨"user", AMsgContent.str "aaaaaaaaaaaaaaaaaaaaaaaaaaaaaaaaaaaaaaaa"⟩,
         ⟨"assistant", AMsgContent.str "bbbbbbbbbbbbbbbbbbbbbbbb"⟩,
         ⟨"user", AMsgContent.str "cccccccccccccccc"⟩] +
        estimateFallback "ssssssssssssssss" + toolTokens estimateFallback [] + 4 ≤ 30 →
      truncate_conversation estimateFallback 30 4
        [⟨"user", AMsgContent.str "aaaaaaaaaaaaaaaaaaaaaaaaaaaaaaaaaaaaaaaa"⟩,
         ⟨"assistant", AMsgContent.str "bbbbbbbbbbbbbbbbbbbbbbbb"⟩,
         ⟨"user", AMsgContent.str "cccccccccccccccc"⟩] "ssssssssssssssss" [] =
        [⟨"user", AMsgContent.str "aaaaaaaaaaaaaaaaaaaaaaaaaaaaaaaaaaaaaaaa"⟩,
         ⟨"assistant", AMsgContent.str "bbbbbbbbbbbbbbbbbbbbbbbb"⟩,
         ⟨"user", AMsgContent.str "cccccccccccccccc"⟩]) :=
  truncate_conversation_correct estimateFallback 30 4
    [⟨"user", AMsgContent.str "aaaaaaaaaaaaaaaaaaaaaaaaaaaaaaaaaaaaaaaa"⟩,
     ⟨"assistant", AMsgContent.str "bbbbbbbbbbbbbbbbbbbbbbbb"⟩,
     ⟨"user", AMsgContent.str "cccccccccccccccc"⟩] "ssssssssssssssss" [] (by decide)

/-! ## Agent loop (src/app/services/llm.py)

The LLM provider is an oracle `List message → response` (one response per
provider round trip), tool inputs are an arbitrary type `ι` (Python
`dict[str, Any]`), and a tool callable either returns a string or raises
(`Except String String`). -/

inductive LContentBlock (ι : Type) where
  | text (t : String)
  | toolUse (id name : String) (input : ι)
  | toolResult (tool_use_id : String) (content : String) (is_error : Bool)
  deriving DecidableEq

inductive LMsgContent (ι : Type) where
  | str (s : String)
  | blocks (items : List (LContentBlock ι))
  deriving DecidableEq

structure LLMMessage (ι : Type) where
  role : String
  content : LMsgContent ι
  deriving DecidableEq

structure LLMUsage where
  input_tokens : Nat := 0
  output_tokens : Nat := 0
  total_tokens : Nat := 0
  cache_creation_input_tokens : Nat := 0
  cache_read_input_tokens : Nat := 0
  deriving Repr, DecidableEq

/-- Usage accumulation of `execute_agent_loop`
(src/app/services/llm.py lines 117-121): additive, never decreasing. -/
def addUsage (u v : LLMUsage) : LLMUsage :=
  { input_tokens := u.input_tokens + v.input_tokens,
    output_tokens := u.output_tokens + v.output_tokens,
    total_tokens := u.total_tokens + v.total_tokens,
    cache_creation_input_tokens := u.cache_creation_input_tokens + v.cache_creation_input_tokens,
    cache_read_input_tokens := u.cache_read_input_tokens + v.cache_read_input_tokens }

structure AgentResponse (ι : Type) where
  content : List (LContentBlock ι)
  stop_reason : Option String
  usage : LLMUsage

structure AgentLoopResult (ι : Type) where
  content : List (LContentBlock ι)
  stop_reason : Option String
  messages : List (LLMMessage ι)
  turns : Nat
  usage : LLMUsage

def isToolUse {ι : Type} : LContentBlock ι → Bool
  | LContentBlock.toolUse _ _ _ => true
  | _ => false

/-- Tool execution of one tool-use block
(src/app/services/llm.py lines 135-168): unknown tools and raising tools
become error tool-result blocks instead of aborting the run. -/
def executeToolBlock {ι : Type} (tools : List (String × (ι → Except String String))) :
    LContentBlock ι → List (LContentBlock ι)
  | LContentBlock.toolUse id name input =>
    match (tools.find? (fun t => t.1 == name)).map (fun t => t.2) with
    | some f =>
      match f input with
      | Except.ok r => [LContentBlock.toolResult id r false]
      | Except.error e => [LContentBlock.toolResult id ("Error: " ++ e) true]
    | none => [LContentBlock.toolResult id ("Error: Unknown tool " ++ name) true]
  | _ => []

/-- Final notice text emitted when the turn ceiling is reached
(src/app/services/llm.py lines 186-200). -/
def maxTurnsText : String :=
  "I apologize, but our conversation has reached the maximum number of turns. Please start a new conversation."

/-- The `while turns < max_turns` loop of `execute_agent_loop`
(src/app/services/llm.py lines 82-200), with the remaining turn budget as
fuel (`turns + remaining = max_turns` throughout).  Each iteration calls
the oracle once, accumulates usage, and either executes the requested
tools and loops, or returns the natural completion; exhausted fuel
produces the max-turns notice with stop reason "max_turns". -/
def agentLoopAux {ι : Type} (oracle : List (LLMMessage ι) → AgentResponse ι)
    (tools : List (String × (ι → Except String String))) :
    Nat → List (LLMMessage ι) → Nat → LLMUsage → AgentLoopResult ι
  | 0, current, turns, usage =>
    { content := [LContentBlock.text maxTurnsText], stop_reason := some "max_turns",
      messages := current, turns := turns, usage := usage }
  | remaining + 1, current, turns, usage =>
    if (oracle current).stop_reason == some "tool_use" &&
        !((oracle current).content.filter isToolUse).isEmpty then
      agentLoopAux oracle tools remaining
        (current ++
          [⟨"assistant", LMsgContent.blocks (oracle current).content⟩,
           ⟨"user", LMsgContent.blocks (((oracle current).content.filter isToolUse).foldl
             (fun acc b => acc ++ executeToolBlock tools b) [])⟩])
        (turns + 1) (addUsage usage (oracle current).usage)
    else
      { content := (oracle current).content, stop_reason := (oracle current).stop_reason,
        messages := current, turns := turns + 1, usage := addUsage usage (oracle current).usage }

/-- Embeds `LLMService.execute_agent_loop` (src/app/services/llm.py
lines 54-200); `max_turns` defaults to 10 in the source signature. -/
def execute_agent_loop {ι : Type} (oracle : List (LLMMessage ι) → AgentResponse ι)
    (tools : List (String × (ι → Except String String)))
    (messages : List (LLMMessage ι)) (max_turns : Nat) : AgentLoopResult ι :=
  agentLoopAux oracle tools max_turns messages 0 {}

theorem agentLoopAux_turns_le {ι : Type} (oracle : List (LLMMessage ι) → AgentResponse ι)
    (tools : List (String × (ι → Except String String))) :
    ∀ (remaining : Nat) (current : List (LLMMessage ι)) (turns : Nat) (usage : LLMUsage),
      (agentLoopAux oracle tools remaining current turns usage).turns ≤ turns + remaining := by
  intro remaining
  induction remaining with
  | zero => intro current turns usage; exact Nat.le_refl _
  | succ r ih =>
    intro current turns usage
    unfold agentLoopAux
    by_cases hc : ((oracle current).stop_reason == some "tool_use" &&
        !((oracle current).content.filter isToolUse).isEmpty) = true
    · rw [if_pos hc]
      have h2 := ih (current ++
        [⟨"assistant", LMsgContent.blocks (oracle current).content⟩,
         ⟨"user", LMsgContent.blocks (((oracle current).content.filter isToolUse).foldl
           (fun acc b => acc ++ executeToolBlock tools b) [])⟩]) (turns + 1)
        (addUsage usage (oracle current).usage)
      omega
    · rw [if_neg hc]
      dsimp only
      omega

theorem agentLoopAux_all_tool_use {ι : Type} (oracle : List (LLMMessage ι) → AgentResponse ι)
    (tools : List (String × (ι → Except String String)))
    (hall : ∀ ms, (oracle ms).stop_reason = some "tool_use" ∧
      (oracle ms).content.filter isToolUse ≠ []) :
    ∀ (remaining : Nat) (current : List (LLMMessage ι)) (turns : Nat) (usage : LLMUsage),
      (agentLoopAux oracle tools remaining current turns usage).turns = turns + remaining ∧
      (agentLoopAux oracle tools remaining current turns usage).stop_reason = some "max_turns" ∧
      (agentLoopAux oracle tools remaining current turns usage).content =
        [LContentBlock.text maxTurnsText] := by
  intro remaining
  induction remaining with
  | zero => intro current turns usage; exact ⟨rfl, rfl, rfl⟩
  | succ r ih =>
    intro current turns usage
    have hc : ((oracle current).stop_reason == some "tool_use" &&
        !((oracle current).content.filter isToolUse).isEmpty) = true := by
      obtain ⟨h1, h2⟩ := hall current
      simp [h1, h2]
    unfold agentLoopAux
    rw [if_pos hc]
    have h3 := ih (current ++
      [⟨"assistant", LMsgContent.blocks (oracle current).content⟩,
       ⟨"user", LMsgContent.blocks (((oracle current).content.filter isToolUse).foldl
         (fun acc b => acc ++ executeToolBlock tools b) [])⟩]) (turns + 1)
      (addUsage usage (oracle current).usage)
    refine ⟨?_, h3.2.1, h3.2.2⟩
    rw [h3.1]
    omega

/-- C8: for every oracle (hence every input), every tool set and every
initial message list, a run of the agent loop terminates within the
per-run turn ceiling `max_turns` (the result's turn counter never exceeds
it), and if the model keeps requesting tools on every round trip — the
only way to reach the ceiling — the run ends after exactly `max_turns`
turns with stop reason "max_turns" and the fixed "maximum number of
turns" notice as its final content. -/
theorem agent_loop_terminates_within_max_turns {ι : Type}
    (oracle : List (LLMMessage ι) → AgentResponse ι)
    (tools : List (String × (ι → Except String String)))
    (messages : List (LLMMessage ι)) (max_turns : Nat) :
    (execute_agent_loop oracle tools messages max_turns).turns ≤ max_turns ∧
    ((∀ ms, (oracle ms).stop_reason = some "tool_use" ∧
        (oracle ms).content.filter isToolUse ≠ []) →
      (execute_agent_loop oracle tools messages max_turns).turns = max_turns ∧
      (execute_agent_loop oracle tools messages max_turns).stop_reason = some "max_turns" ∧
      (execute_agent_loop oracle tools messages max_turns).content =
        [LContentBlock.text maxTurnsText]) := by
  constructor
  · have h := agentLoopAux_turns_le oracle tools max_turns messages 0 {}
    unfold execute_agent_loop
    omega
  · intro hall
    have h := agentLoopAux_all_tool_use oracle tools hall max_turns messages 0 {}
    unfold execute_agent_loop
    exact ⟨by rw [h.1]; omega, h.2.1, h.2.2⟩

/-- Witness for C8: an oracle that always requests a tool reaches the
ceiling of 3 turns and produces the max-turns notice; the hypothesis is
discharged at this concrete oracle. -/
theorem agent_loop_terminates_within_max_turns_witness :
    (execute_agent_loop (ι := Unit)
        (fun _ => { content := [LContentBlock.toolUse "tu1" "ping" ()],
                    stop_reason := some "tool_use", usage := {} }) [] [] 3).turns ≤ 3 ∧
    ((execute_agent_loop (ι := Unit)
        (fun _ => { content := [LContentBlock.toolUse "tu1" "ping" ()],
                    stop_reason := some "tool_use", usage := {} }) [] [] 3).turns = 3 ∧
      (execute_agent_loop (ι := Unit)
        (fun _ => { content := [LContentBlock.toolUse "tu1" "ping" ()],
                    stop_reason := some "tool_use", usage := {} }) [] [] 3).stop_reason =
        some "max_turns" ∧
      (execute_agent_loop (ι := Unit)
        (fun _ => { content := [LContentBlock.toolUse "tu1" "ping" ()],
                    stop_reason := some "tool_use", usage := {} }) [] [] 3).content =
        [LContentBlock.text maxTurnsText]) :=
  ⟨(agent_loop_terminates_within_max_turns
      (fun _ => { content := [LContentBlock.toolUse "tu1" "ping" ()],
                  stop_reason := some "tool_use", usage := {} }) [] [] 3).1,
   (agent_loop_terminates_within_max_turns
      (fun _ => { content := [LContentBlock.toolUse "tu1" "ping" ()],
                  stop_reason := some "tool_use", usage := {} }) [] [] 3).2
     (fun _ => ⟨rfl, by decide⟩)⟩

/-! ## Provider retry policy
(src/app/clients/anthropic.py `_request_with_retries`, lines 223-253)

One provider call attempt either succeeds, raises an `APIError` (with an
optional `status_code` and an optional integer `retry-after` header), or
raises some other exception.  The embedding returns the final outcome
together with the list of sleep durations (in seconds, as rationals since
`retry_delay` is a float) performed between attempts. -/

inductive CallOutcome (α : Type) where
  | success (v : α)
  | apiError (status : Option Nat) (retryAfterHeader : Option Nat)
  | otherError (msg : String)

inductive RequestError where
  | api (status : Option Nat) (retryAfterHeader : Option Nat)
  | other (msg : String)
  | exhausted
  deriving Repr, DecidableEq

/-- Truth of `hasattr(e, "status_code") and e.status_code >= 500`. -/
def statusIs5xx : Option Nat → Bool
  | some s => decide (500 ≤ s)
  | none => false

/-- The `for attempt in range(max_retries)` loop of
`_request_with_retries`, with the remaining iteration budget as fuel
(`attempt + remaining = max_retries` at every call from the entry point).
A 429 with advertised retry-after below 120 and attempts remaining sleeps
`retry-after` seconds (60 when the header is absent) and retries; a 5xx
with attempts remaining sleeps `retry_delay * 2^attempt` and retries; any
other `APIError` re-raises; a non-`APIError` exception retries with the
same exponential backoff while attempts remain; a `for` loop that never
ran (max_retries = 0) raises the final "Failed to complete request"
error, modelled as `RequestError.exhausted`. -/
def retryAux {α : Type} (max_retries : Nat) (retry_delay : ℚ)
    (call : Nat → CallOutcome α) : Nat → Nat → Except RequestError α × List ℚ
  | _, 0 => (Except.error RequestError.exhausted, [])
  | attempt, remaining + 1 =>
    match call attempt with
    | CallOutcome.success v => (Except.ok v, [])
    | CallOutcome.apiError status ra =>
      if status = some 429 then
        if ra.getD 60 < 120 ∧ attempt < max_retries - 1 then
          ((retryAux max_retries retry_delay call (attempt + 1) remaining).1,
            ((ra.getD 60 : Nat) : ℚ) ::
              (retryAux max_retries retry_delay call (attempt + 1) remaining).2)
        else
          (Except.error (RequestError.api status ra), [])
      else if statusIs5xx status ∧ attempt < max_retries - 1 then
        ((retryAux max_retries retry_delay call (attempt + 1) remaining).1,
          retry_delay * 2 ^ attempt ::
            (retryAux max_retries retry_delay call (attempt + 1) remaining).2)
      else
        (Except.error (RequestError.api status ra), [])
    | CallOutcome.otherError msg =>
      if attempt < max_retries - 1 then
        ((retryAux max_retries retry_delay call (attempt + 1) remaining).1,
          retry_delay * 2 ^ attempt ::
            (retryAux max_retries retry_delay call (attempt + 1) remaining).2)
      else
        (Except.error (RequestError.other msg), [])

/-- Embeds `AnthropicClient._request_with_retries`
(src/app/clients/anthropic.py lines 223-253). -/
def request_with_retries {α : Type} (max_retries : Nat) (retry_delay : ℚ)
    (call : Nat → CallOutcome α) : Except RequestError α × List ℚ :=
  retryAux max_retries retry_delay call 0 max_retries

theorem retryAux_succ {α : Type} (max_retries : Nat) (retry_delay : ℚ)
    (call : Nat → CallOutcome α) (attempt rem : Nat) :
    retryAux max_retries retry_delay call attempt (rem + 1) =
      match call attempt with
      | CallOutcome.success v => (Except.ok v, [])
      | CallOutcome.apiError status ra =>
        if status = some 429 then
          if ra.getD 60 < 120 ∧ attempt < max_retries - 1 then
            ((retryAux max_retries retry_delay call (attempt + 1) rem).1,
              ((ra.getD 60 : Nat) : ℚ) ::
                (retryAux max_retries retry_delay call (attempt + 1) rem).2)
          else
            (Except.error (RequestError.api status ra), [])
        else if statusIs5xx status ∧ attempt < max_retries - 1 then
          ((retryAux max_retries retry_delay call (attempt + 1) rem).1,
            retry_delay * 2 ^ attempt ::
              (retryAux max_retries retry_delay call (attempt + 1) rem).2)
        else
          (Except.error (RequestError.api status ra), [])
      | CallOutcome.otherError msg =>
        if attempt < max_retries - 1 then
          ((retryAux max_retries retry_delay call (attempt + 1) rem).1,
            retry_delay * 2 ^ attempt ::
              (retryAux max_retries retry_delay call (attempt + 1) rem).2)
        else
          (Except.error (RequestError.other msg), []) := rfl

theorem retryAux_sleeps_le {α : Type} (max_retries : Nat) (retry_delay : ℚ)
    (call : Nat → CallOutcome α) :
    ∀ (remaining attempt : Nat), attempt + remaining = max_retries →
      (retryAux max_retries retry_delay call attempt remaining).2.length ≤ remaining - 1 := by
  intro remaining
  induction remaining with
  | zero => intro attempt _; exact Nat.le_refl _
  | succ r ih =>
    intro attempt hsum
    unfold retryAux
    have hr : attempt + 1 + r = max_retries := by omega
    have hih := ih (attempt + 1) hr
    cases call attempt with
    | success v => simp
    | apiError status ra =>
      dsimp only
      by_cases h429 : status = some 429
      · rw [if_pos h429]
        by_cases hcond : ra.getD 60 < 120 ∧ attempt < max_retries - 1
        · rw [if_pos hcond]
          have hrge : 1 ≤ r := by omega
          simp only [List.length_cons]
          omega
        · rw [if_neg hcond]
          simp
      · rw [if_neg h429]
        by_cases hcond : (statusIs5xx status : Prop) ∧ attempt < max_retries - 1
        · rw [if_pos hcond]
          have hrge : 1 ≤ r := by omega
          simp only [List.length_cons]
          omega
        · rw [if_neg hcond]
          simp
    | otherError msg =>
      dsimp only
      by_cases hcond : attempt < max_retries - 1
      · rw [if_pos hcond]
        have hrge : 1 ≤ r := by omega
        simp only [List.length_cons]
        omega
      · rw [if_neg hcond]
        simp

/-- C6: per-attempt behavior of the provider retry policy, for every call
sequence, retry budget and delay.  (1) a successful attempt returns its
value with no further sleeps; (2) a 429 with advertised retry-after below
120 seconds and attempts remaining sleeps the advertised value (60 when
the header is absent) and retries; (3) a 429 without those conditions
propagates the error; (4) a 5xx with attempts remaining sleeps
`retry_delay * 2^attempt` and retries; (5) a non-retryable `APIError`
(no 5xx status and not a retryable 429) propagates; (6) any other
transient failure retries with the same exponential backoff while
attempts remain, and (7) propagates once the budget is exhausted;
(8) globally, at most `max_retries - 1` sleeps happen, so at most
`max_retries` total attempts are made. -/
theorem request_retry_policy (max_retries : Nat) (retry_delay : ℚ)
    {α : Type} (call : Nat → CallOutcome α) :
    (∀ attempt rem (v : α), call attempt = CallOutcome.success v →
      retryAux max_retries retry_delay call attempt (rem + 1) = (Except.ok v, [])) ∧
    (∀ attempt rem ra, call attempt = CallOutcome.apiError (some 429) ra →
      ra.getD 60 < 120 → attempt < max_retries - 1 →
      retryAux max_retries retry_delay call attempt (rem + 1) =
        ((retryAux max_retries retry_delay call (attempt + 1) rem).1,
          ((ra.getD 60 : Nat) : ℚ) ::
            (retryAux max_retries retry_delay call (attempt + 1) rem).2)) ∧
    (∀ attempt rem ra, call attempt = CallOutcome.apiError (some 429) ra →
      ¬(ra.getD 60 < 120 ∧ attempt < max_retries - 1) →
      retryAux max_retries retry_delay call attempt (rem + 1) =
        (Except.error (RequestError.api (some 429) ra), [])) ∧
    (∀ attempt rem status ra, call attempt = CallOutcome.apiError status ra →
      status ≠ some 429 → statusIs5xx status = true → attempt < max_retries - 1 →
      retryAux max_retries retry_delay call attempt (rem + 1) =
        ((retryAux max_retries retry_delay call (attempt + 1) rem).1,
          retry_delay * 2 ^ attempt ::
            (retryAux max_retries retry_delay call (attempt + 1) rem).2)) ∧
    (∀ attempt rem status ra, call attempt = CallOutcome.apiError status ra →
      status ≠ some 429 → ¬((statusIs5xx status : Prop) ∧ attempt < max_retries - 1) →
      retryAux max_retries retry_delay call attempt (rem + 1) =
        (Except.error (RequestError.api status ra), [])) ∧
    (∀ attempt rem msg, call attempt = CallOutcome.otherError msg →
      attempt < max_retries - 1 →
      retryAux max_retries retry_delay call attempt (rem + 1) =
        ((retryAux max_retries retry_delay call (attempt + 1) rem).1,
          retry_delay * 2 ^ attempt ::
            (retryAux max_retries retry_delay call (attempt + 1) rem).2)) ∧
    (∀ attempt rem msg, call attempt = CallOutcome.otherError msg →
      ¬(attempt < max_retries - 1) →
      retryAux max_retries retry_delay call attempt (rem + 1) =
        (Except.error (RequestError.other msg), [])) ∧
    (request_with_retries max_retries retry_delay call).2.length ≤ max_retries - 1 := by
  refine ⟨?_, ?_, ?_, ?_, ?_, ?_, ?_, ?_⟩
  · intro attempt rem v hcall
    rw [retryAux_succ, hcall]
  · intro attempt rem ra hcall hra hatt
    rw [retryAux_succ, hcall]
    dsimp only
    rw [if_pos rfl, if_pos (And.intro hra hatt)]
  · intro attempt rem ra hcall hneg
    rw [retryAux_succ, hcall]
    dsimp only
    rw [if_pos rfl, if_neg hneg]
  · intro attempt rem status ra hcall hne h5xx hatt
    rw [retryAux_succ, hcall]
    dsimp only
    rw [if_neg hne, if_pos (And.intro h5xx hatt)]
  · intro attempt rem status ra hcall hne hneg
    rw [retryAux_succ, hcall]
    dsimp only
    rw [if_neg hne, if_neg hneg]
  · intro attempt rem msg hcall hatt
    rw [retryAux_succ, hcall]
    dsimp only
    rw [if_pos hatt]
  · intro attempt rem msg hcall hneg
    rw [retryAux_succ, hcall]
    dsimp only
    rw [if_neg hneg]
  · exact retryAux_sleeps_le max_retries retry_delay call max_retries 0 (by omega)

/-- Witness for C6, echoing end-to-end scenario 5: with `max_retries = 3`
and `retry_delay = 1`, a first attempt answered by HTTP 429 with
`retry-after: 5` sleeps 5 seconds and retries, and the second attempt's
success is returned. -/
theorem request_retry_policy_witness :
    retryAux 3 1 (fun n => if n = 0 then CallOutcome.apiError (some 429) (some 5)
      else CallOutcome.success "ok") 0 3 =
      ((retryAux 3 1 (fun n => if n = 0 then CallOutcome.apiError (some 429) (some 5)
          else CallOutcome.success "ok") 1 2).1,
        ((5 : Nat) : ℚ) ::
          (retryAux 3 1 (fun n => if n = 0 then CallOutcome.apiError (some 429) (some 5)
            else CallOutcome.success "ok") 1 2).2) ∧
    (request_with_retries 3 1 (fun n => if n = 0 then CallOutcome.apiError (some 429) (some 5)
      else CallOutcome.success "ok")).2.length ≤ 2 :=
  ⟨(request_retry_policy 3 1 (fun n => if n = 0 then CallOutcome.apiError (some 429) (some 5)
      else CallOutcome.success "ok")).2.1 0 2 (some 5) rfl (by norm_num) (by norm_num),
   (request_retry_policy 3 1 (fun n => if n = 0 then CallOutcome.apiError (some 429) (some 5)
      else CallOutcome.success "ok")).2.2.2.2.2.2.2⟩

/-! ## Turn-controller error recovery
(src/app/graphs/nodes.py `error_handler_node`,
src/app/graphs/edges.py `route_error_output`)

The graph state channels relevant to error recovery are `messages`
(merged through the langgraph `add_messages` reducer), `error`,
`retry_count` and `next_step`.  A node returns a partial update; scalar
channels are overwritten, the messages channel is merged by message id.
A graph message carries the id that `add_messages` assigns on first
insertion. -/

inductive Step where
  | agent
  | tools
  | verify
  | error
  | stop
  deriving Repr, DecidableEq

structure GraphMessage where
  id : Nat
  role : String
  content : String
  deriving Repr, DecidableEq

structure ErrState where
  messages : List GraphMessage
  error : Option String
  retry_count : Nat
  next_step : Option Step
  deriving Repr, DecidableEq

/-- Partial state update returned by a node: `none` in a scalar field
means the key was absent from the returned dict (channel unchanged). -/
structure ErrUpdate where
  messages : List GraphMessage
  retry_count : Option Nat
  error : Option (Option String)
  next_step : Option (Option Step)
  deriving Repr, DecidableEq

/-- Python substring membership `pat in s` over lists. -/
def listHasSub {α : Type} [DecidableEq α] (pat : List α) : List α → Bool
  | [] => pat == []
  | a :: rest => pat.isPrefixOf (a :: rest) || listHasSub pat rest

def strContainsSub (s pat : String) : Bool := listHasSub pat.toList s.toList

/-- Notice injected on a rate-limit-class error
(src/app/graphs/nodes.py line 211). -/
def highDemandText : String := "I'm experiencing high demand. Let me try again in a moment..."

/-- Notice injected on a token/context-class error
(src/app/graphs/nodes.py lines 221-223). -/
def truncateNoticeText : String :=
  "Our conversation has become quite long. I'll continue with a shortened context to help you better."

/-- Generic apology of the unrecoverable branch
(src/app/graphs/nodes.py line 232). -/
def genericApologyText : String :=
  "I apologize, but I encountered an error. Please try rephrasing your request."

/-- Embeds `error_handler_node` (src/app/graphs/nodes.py lines 202-237).
`freshId` is the id `add_messages` will assign to the newly created
`AIMessage`. -/
def error_handler_node (freshId : Nat) (s : ErrState) : ErrUpdate :=
  if strContainsSub (pyLower (s.error.getD "Unknown error occurred")) "rate_limit" then
    { messages := [⟨freshId, "ai", highDemandText⟩],
      retry_count := some (s.retry_count + 1),
      error := some none,
      next_step := some (some (if s.retry_count < 3 then Step.agent else Step.stop)) }
  else if strContainsSub (pyLower (s.error.getD "Unknown error occurred")) "token" ||
      strContainsSub (pyLower (s.error.getD "Unknown error occurred")) "context" then
    { messages := (s.messages.drop (s.messages.length - 10)) ++
        [⟨freshId, "ai", truncateNoticeText⟩],
      retry_count := none,
      error := some none,
      next_step := some (some Step.agent) }
  else
    { messages := [⟨freshId, "ai", genericApologyText⟩],
      retry_count := none,
      error := some none,
      next_step := some (some Step.stop) }

/-- Models one step of the langgraph `add_messages` reducer (external
library): a message whose id already occurs replaces the message with
that id in place; an unseen id is appended. -/
def addMessagesOne (acc : List GraphMessage) (m : GraphMessage) : List GraphMessage :=
  if acc.any (fun x => x.id == m.id) then
    acc.map (fun x => if x.id == m.id then m else x)
  else
    acc ++ [m]

/-- Models the langgraph `add_messages` reducer over a whole update. -/
def addMessages (left right : List GraphMessage) : List GraphMessage :=
  right.foldl addMessagesOne left

/-- Application of a node's partial update to the graph state: scalar
channels are overwritten when the key is present; the messages channel is
merged with `add_messages`. -/
def applyErrUpdate (s : ErrState) (u : ErrUpdate) : ErrState :=
  { messages := addMessages s.messages u.messages,
    error := u.error.getD s.error,
    retry_count := u.retry_count.getD s.retry_count,
    next_step := u.next_step.getD s.next_step }

/-- Embeds `route_error_output` (src/app/graphs/edges.py lines 58-70):
the conditional edge out of the error node; `Step.stop` models the "end"
label.  Note that it reads only `retry_count` and `error`, never
`next_step`. -/
def route_error_output (s : ErrState) : Step :=
  if 3 ≤ s.retry_count then Step.stop
  else if !optStrTruthy s.error then Step.agent
  else Step.stop

theorem eq_of_mem_of_nodup_map {α β : Type} {f : α → β} {l : List α}
    (hnodup : (l.map f).Nodup) {x y : α} (hx : x ∈ l) (hy : y ∈ l) (hf : f x = f y) :
    x = y := by
  induction l with
  | nil => cases hx
  | cons a rest ih =>
    rw [List.map_cons, List.nodup_cons] at hnodup
    rcases List.mem_cons.mp hx with rfl | hx2
    · rcases List.mem_cons.mp hy with rfl | hy2
      · rfl
      · exact absurd (hf ▸ List.mem_map_of_mem f hy2) hnodup.1
    · rcases List.mem_cons.mp hy with rfl | hy2
      · exact absurd (hf ▸ List.mem_map_of_mem f hx2) hnodup.1
      · exact ih hnodup.2 hx2 hy2

theorem addMessagesOne_mem {l : List GraphMessage} {m : GraphMessage}
    (hm : m ∈ l) (hnodup : (l.map (fun x => x.id)).Nodup) :
    addMessagesOne l m = l := by
  unfold addMessagesOne
  rw [if_pos (List.any_eq_true.mpr ⟨m, hm, by simp⟩)]
  have hcong : ∀ x ∈ l, (if x.id == m.id then m else x) = x := by
    intro x hx
    by_cases hid : x.id = m.id
    · have hxm : x = m := eq_of_mem_of_nodup_map hnodup hx hm hid
      rw [if_pos (by simp [hid]), hxm]
    · rw [if_neg (by simp [hid])]
  rw [List.map_congr_left hcong, List.map_id']

theorem addMessages_of_mem {l : List GraphMessage} {sub : List GraphMessage}
    (hsub : ∀ m ∈ sub, m ∈ l) (hnodup : (l.map (fun x => x.id)).Nodup) :
    addMessages l sub = l := by
  induction sub with
  | nil => rfl
  | cons m rest ih =>
    unfold addMessages at ih ⊢
    rw [List.foldl_cons, addMessagesOne_mem (hsub m (List.mem_cons_self m rest)) hnodup]
    exact ih (fun x hx => hsub x (List.mem_cons_of_mem m hx))

theorem addMessages_append_fresh {l sub : List GraphMessage} {fresh : GraphMessage}
    (hsub : ∀ m ∈ sub, m ∈ l) (hnodup : (l.map (fun x => x.id)).Nodup)
    (hfresh : ∀ m ∈ l, m.id ≠ fresh.id) :
    addMessages l (sub ++ [fresh]) = l ++ [fresh] := by
  unfold addMessages
  rw [List.foldl_append]
  have h1 : sub.foldl addMessagesOne l = l := addMessages_of_mem hsub hnodup
  rw [h1, List.foldl_cons, List.foldl_nil]
  unfold addMessagesOne
  rw [if_neg ?_]
  intro hany
  obtain ⟨x, hx, hxid⟩ := List.any_eq_true.mp hany
  exact hfresh x hx (by simpa using hxid)

/-- Counterexample for C5 at two concrete error states.  First, an
unclassified error ("database connection failed") with retry budget
untouched: the node sets `next_step` to the "end" label, but the graph's
error edge is routed by `route_error_output`, which ignores `next_step`
and — since the node reset the error slot and `retry_count = 0 < 3` —
routes back to "agent", so the claimed `ERROR → END` transition does not
happen.  Second, a context-length-class error ("token limit exceeded")
leaves `retry_count` absent from the update and hence unchanged at 0, so
context-class recoveries do not count toward the retry ceiling as
claimed. -/
theorem error_recovery_counterexample :
    (error_handler_node 100
      ⟨[⟨1, "system", "sys"⟩, ⟨2, "user", "hi"⟩],
        some "database connection failed", 0, none⟩).next_step = some (some Step.stop) ∧
    route_error_output (applyErrUpdate
      ⟨[⟨1, "system", "sys"⟩, ⟨2, "user", "hi"⟩], some "database connection failed", 0, none⟩
      (error_handler_node 100
        ⟨[⟨1, "system", "sys"⟩, ⟨2, "user", "hi"⟩],
          some "database connection failed", 0, none⟩)) = Step.agent ∧
    Step.agent ≠ Step.stop ∧
    (error_handler_node 100
      ⟨[⟨1, "system", "sys"⟩, ⟨2, "user", "hi"⟩],
        some "token limit exceeded", 0, none⟩).retry_count = none ∧
    (applyErrUpdate
      ⟨[⟨1, "system", "sys"⟩, ⟨2, "user", "hi"⟩], some "token limit exceeded", 0, none⟩
      (error_handler_node 100
        ⟨[⟨1, "system", "sys"⟩, ⟨2, "user", "hi"⟩],
          some "token limit exceeded", 0, none⟩)).retry_count = 0 := by
  decide

/-- C5 (amended): behavior of one pass through the error handler followed
by its conditional edge, for every state whose message ids are distinct
and every fresh id.  (1) A rate-limit-class error (message containing
"rate_limit") appends the high-demand notice, resets the error slot,
increments `retry_count`, and the edge resumes at AGENT iff the new count
is still below 3.  (2) A context-length-class error (message containing
"token" or "context", not classified rate-limit) appends the truncation
notice, resets the error slot, leaves `retry_count` unchanged — it does
not count toward the retry ceiling — and resumes at AGENT iff the old
count is below 3; moreover the attempted truncation to the last 10
messages is undone by the `add_messages` id-merge, so the full history
plus the notice survives.  (3) Any other error appends the generic
apology and sets `next_step` to the "end" label, but the edge ignores
`next_step`: it too resumes at AGENT iff `retry_count < 3`, reaching END
only when the ceiling was already met. -/
theorem error_recovery_behavior (s : ErrState) (freshId : Nat)
    (hnodup : (s.messages.map (fun m => m.id)).Nodup)
    (hfresh : ∀ m ∈ s.messages, m.id ≠ freshId) :
    (strContainsSub (pyLower (s.error.getD "Unknown error occurred")) "rate_limit" = true →
      applyErrUpdate s (error_handler_node freshId s) =
        { messages := s.messages ++ [⟨freshId, "ai", highDemandText⟩],
          error := none,
          retry_count := s.retry_count + 1,
          next_step := some (if s.retry_count < 3 then Step.agent else Step.stop) } ∧
      route_error_output (applyErrUpdate s (error_handler_node freshId s)) =
        (if 3 ≤ s.retry_count + 1 then Step.stop else Step.agent)) ∧
    (strContainsSub (pyLower (s.error.getD "Unknown error occurred")) "rate_limit" = false →
      (strContainsSub (pyLower (s.error.getD "Unknown error occurred")) "token" ||
        strContainsSub (pyLower (s.error.getD "Unknown error occurred")) "context") = true →
      applyErrUpdate s (error_handler_node freshId s) =
        { messages := s.messages ++ [⟨freshId, "ai", truncateNoticeText⟩],
          error := none,
          retry_count := s.retry_count,
          next_step := some Step.agent } ∧
      route_error_output (applyErrUpdate s (error_handler_node freshId s)) =
        (if 3 ≤ s.retry_count then Step.stop else Step.agent)) ∧
    (strContainsSub (pyLower (s.error.getD "Unknown error occurred")) "rate_limit" = false →
      (strContainsSub (pyLower (s.error.getD "Unknown error occurred")) "token" ||
        strContainsSub (pyLower (s.error.getD "Unknown error occurred")) "context") = false →
      applyErrUpdate s (error_handler_node freshId s) =
        { messages := s.messages ++ [⟨freshId, "ai", genericApologyText⟩],
          error := none,
          retry_count := s.retry_count,
          next_step := some Step.stop } ∧
      route_error_output (applyErrUpdate s (error_handler_node freshId s)) =
        (if 3 ≤ s.retry_count then Step.stop else Step.agent)) := by
  have hmerge1 : ∀ txt, addMessages s.messages [⟨freshId, "ai", txt⟩] =
      s.messages ++ [⟨freshId, "ai", txt⟩] := by
    intro txt
    have h := @addMessages_append_fresh s.messages [] ⟨freshId, "ai", txt⟩
      (fun m hm => absurd hm (List.not_mem_nil m)) hnodup (fun m hm => hfresh m hm)
    simpa using h
  have hmerge2 : ∀ txt, addMessages s.messages
      ((s.messages.drop (s.messages.length - 10)) ++ [⟨freshId, "ai", txt⟩]) =
      s.messages ++ [⟨freshId, "ai", txt⟩] :=
    fun txt => addMessages_append_fresh
      (fun m hm => List.drop_subset _ _ hm) hnodup (fun m hm => hfresh m hm)
  refine ⟨?_, ?_, ?_⟩
  · intro hrate
    have hupd : error_handler_node freshId s =
        { messages := [⟨freshId, "ai", highDemandText⟩],
          retry_count := some (s.retry_count + 1),
          error := some none,
          next_step := some (some (if s.retry_count < 3 then Step.agent else Step.stop)) } := by
      unfold error_handler_node
      rw [if_pos hrate]
    constructor
    · rw [hupd]
      unfold applyErrUpdate
      simp only [Option.getD_some]
      rw [hmerge1]
    · rw [hupd]
      unfold applyErrUpdate route_error_output
      simp only [Option.getD_some]
      by_cases h3 : 3 ≤ s.retry_count + 1
      · rw [if_pos h3, if_pos h3]
      · rw [if_neg h3, if_neg h3]
        simp [optStrTruthy]
  · intro hrate htoken
    have hupd : error_handler_node freshId s =
        { messages := (s.messages.drop (s.messages.length - 10)) ++
            [⟨freshId, "ai", truncateNoticeText⟩],
          retry_count := none,
          error := some none,
          next_step := some (some Step.agent) } := by
      unfold error_handler_node
      rw [if_neg (by rw [hrate]; exact Bool.false_ne_true), if_pos htoken]
    constructor
    · rw [hupd]
      unfold applyErrUpdate
      simp only [Option.getD_some, Option.getD_none]
      rw [hmerge2]
    · rw [hupd]
      unfold applyErrUpdate route_error_output
      simp only [Option.getD_some, Option.getD_none]
      by_cases h3 : 3 ≤ s.retry_count
      · rw [if_pos h3, if_pos h3]
      · rw [if_neg h3, if_neg h3]
        simp [optStrTruthy]
  · intro hrate htoken
    have hupd : error_handler_node freshId s =
        { messages := [⟨freshId, "ai", genericApologyText⟩],
          retry_count := none,
          error := some none,
          next_step := some (some Step.stop) } := by
      unfold error_handler_node
      rw [if_neg (by rw [hrate]; exact Bool.false_ne_true),
        if_neg (by rw [htoken]; exact Bool.false_ne_true)]
    constructor
    · rw [hupd]
      unfold applyErrUpdate
      simp only [Option.getD_some, Option.getD_none]
      rw [hmerge1]
    · rw [hupd]
      unfold applyErrUpdate route_error_output
      simp only [Option.getD_some, Option.getD_none]
      by_cases h3 : 3 ≤ s.retry_count
      · rw [if_pos h3, if_pos h3]
      · rw [if_neg h3, if_neg h3]
        simp [optStrTruthy]

/-- Witness for C5 at a concrete context-length error state: the notice
is appended to the full (unspecified-truncation) history, the retry count
stays 0, and the edge routes back to agent. -/
theorem error_recovery_behavior_witness :
    applyErrUpdate
      ⟨[⟨1, "system", "sys"⟩, ⟨2, "user", "hi"⟩], some "context window exceeded", 0, none⟩
      (error_handler_node 100
        ⟨[⟨1, "system", "sys"⟩, ⟨2, "user", "hi"⟩], some "context window exceeded", 0, none⟩) =
      { messages := [⟨1, "system", "sys"⟩, ⟨2, "user", "hi"⟩,
          ⟨100, "ai", truncateNoticeText⟩],
        error := none, retry_count := 0, next_step := some Step.agent } ∧
    route_error_output (applyErrUpdate
      ⟨[⟨1, "system", "sys"⟩, ⟨2, "user", "hi"⟩], some "context window exceeded", 0, none⟩
      (error_handler_node 100
        ⟨[⟨1, "system", "sys"⟩, ⟨2, "user", "hi"⟩],
          some "context window exceeded", 0, none⟩)) = Step.agent :=
  ((error_recovery_behavior
      ⟨[⟨1, "system", "sys"⟩, ⟨2, "user", "hi"⟩], some "context window exceeded", 0, none⟩
      100 (by decide) (by decide)).2.1 (by decide) (by decide))

/-! ## Rate limiter (src/app/clients/anthropic.py `AnthropicRateLimiter`,
lines 85-125)

The `limits` library's `MovingWindowRateLimiter` is an external
dependency; its documented moving-window semantics is modelled
explicitly: the storage keeps the `(time, cost)` of every successful hit;
`hit` succeeds iff the recorded cost within the trailing 60-second window
plus the new cost stays within the limit, recording the entry only on
success; `get_window_stats(...).reset_time` is the oldest in-window
entry's timestamp plus 60.  Time is a natural number of seconds.
Concurrent callers interleave their hits in time order, so a run is a
time-sorted list of hit events threaded through the shared storage. -/

/-- Recorded cost inside the trailing 60-second window ending at `now`. -/
def windowCost : List (Nat × Nat) → Nat → Nat
  | [], _ => 0
  | x :: rest, now =>
    (if x.1 ≤ now ∧ now < x.1 + 60 then x.2 else 0) + windowCost rest now

/-- Models `MovingWindowRateLimiter.hit`: admit and record iff the window
still has room for `cost`. -/
def movingWindowHit (limit : Nat) (entries : List (Nat × Nat)) (now cost : Nat) :
    Bool × List (Nat × Nat) :=
  if windowCost entries now + cost ≤ limit then (true, (now, cost) :: entries)
  else (false, entries)

/-- Models `get_window_stats(...).reset_time`: the oldest in-window
entry's timestamp plus the 60-second period (the current time when the
window is empty). -/
def resetTime (entries : List (Nat × Nat)) (now : Nat) : Nat :=
  match (entries.filter (fun x => x.1 ≤ now && decide (now < x.1 + 60))).map
      (fun x => x.1) with
  | [] => now
  | t :: ts => ts.foldl Nat.min t + 60

/-- Embeds the request-window half of
`AnthropicRateLimiter.check_rate_limit` (src/app/clients/anthropic.py
lines 101-114): hit the window (cost 1); if the hit fails, sleep until
the window's reset time and then proceed — without hitting the window
again.  Returns the caller's proceed time and the updated storage. -/
def check_rate_limit_requests (limit : Nat) (entries : List (Nat × Nat)) (now : Nat) :
    Nat × List (Nat × Nat) :=
  if (movingWindowHit limit entries now 1).1 then
    (now, (movingWindowHit limit entries now 1).2)
  else
    (max now (resetTime (movingWindowHit limit entries now 1).2 now),
      (movingWindowHit limit entries now 1).2)

/-- Sequential interleaving of callers arriving at the given times
(shared storage threaded through `check_rate_limit`). -/
def runArrivals (limit : Nat) : List Nat → List (Nat × Nat) → List Nat × List (Nat × Nat)
  | [], entries => ([], entries)
  | t :: rest, entries =>
    ((check_rate_limit_requests limit entries t).1 ::
        (runArrivals limit rest (check_rate_limit_requests limit entries t).2).1,
      (runArrivals limit rest (check_rate_limit_requests limit entries t).2).2)

/-- Number of callers that proceed inside the rolling window `(w, w+60]`. -/
def countInWindow (times : List Nat) (w : Nat) : Nat :=
  (times.filter (fun t => w < t && decide (t ≤ w + 60))).length

/-- Sequential replay of raw hits through the shared storage. -/
def runHits (limit : Nat) : List (Nat × Nat) → List (Nat × Nat) → List (Nat × Nat)
  | [], entries => entries
  | a :: rest, entries => runHits limit rest (movingWindowHit limit entries a.1 a.2).2

/-- Counterexample for C4 with `requests_per_minute = 1`: callers A and B
arrive at t = 0, C arrives at t = 60.  A's hit is admitted at 0; B's hit
fails, B sleeps until the reset time 60 and then proceeds without
re-hitting; C's hit at 60 is admitted (A's entry has aged out).  Both B
and C proceed inside the rolling window `(0, 60]` — two admissions against
a limit of one, because the code never re-checks the window after
sleeping. -/
theorem rate_limiter_window_counterexample :
    (runArrivals 1 [0, 0, 60] []).1 = [0, 60, 60] ∧
    countInWindow (runArrivals 1 [0, 0, 60] []).1 0 = 2 ∧
    ¬(countInWindow (runArrivals 1 [0, 0, 60] []).1 0 ≤ 1) := by
  decide

theorem windowCost_mono {entries : List (Nat × Nat)} {now e : Nat}
    (hle : ∀ x ∈ entries, x.1 ≤ now) (hne : now ≤ e) :
    windowCost entries e ≤ windowCost entries now := by
  induction entries with
  | nil => exact Nat.le_refl _
  | cons x rest ih =>
    unfold windowCost
    have hx := hle x (List.mem_cons_self x rest)
    have hrest := ih (fun y hy => hle y (List.mem_cons_of_mem x hy))
    by_cases hpe : x.1 ≤ e ∧ e < x.1 + 60
    · rw [if_pos hpe, if_pos ⟨hx, by omega⟩]
      omega
    · rw [if_neg hpe]
      by_cases hpn : x.1 ≤ now ∧ now < x.1 + 60
      · rw [if_pos hpn]
        omega
      · rw [if_neg hpn]
        omega

theorem movingWindowHit_bound {limit : Nat} {entries : List (Nat × Nat)} {now cost : Nat}
    (hle : ∀ x ∈ entries, x.1 ≤ now)
    (hbound : ∀ e, windowCost entries e ≤ limit) :
    ∀ e, windowCost (movingWindowHit limit entries now cost).2 e ≤ limit := by
  intro e
  unfold movingWindowHit
  by_cases hfit : windowCost entries now + cost ≤ limit
  · rw [if_pos hfit]
    show (if now ≤ e ∧ e < now + 60 then cost else 0) + windowCost entries e ≤ limit
    by_cases hne : now ≤ e
    · have hmono := windowCost_mono hle hne
      by_cases hpred : now ≤ e ∧ e < now + 60
      · rw [if_pos hpred]
        omega
      · rw [if_neg hpred]
        omega
    · rw [if_neg (fun h => hne h.1)]
      have := hbound e
      omega
  · rw [if_neg hfit]
    exact hbound e

theorem movingWindowHit_mem {limit : Nat} {entries : List (Nat × Nat)} {now cost : Nat}
    {x : Nat × Nat} (hx : x ∈ (movingWindowHit limit entries now cost).2) :
    x = (now, cost) ∨ x ∈ entries := by
  unfold movingWindowHit at hx
  by_cases hfit : windowCost entries now + cost ≤ limit
  · rw [if_pos hfit] at hx
    exact List.mem_cons.mp hx
  · rw [if_neg hfit] at hx
    exact Or.inr hx

theorem runHits_bound (limit : Nat) :
    ∀ (hits entries : List (Nat × Nat)),
      hits.Pairwise (fun a b => a.1 ≤ b.1) →
      (∀ x ∈ entries, ∀ a ∈ hits, x.1 ≤ a.1) →
      (∀ e, windowCost entries e ≤ limit) →
      ∀ e, windowCost (runHits limit hits entries) e ≤ limit := by
  intro hits
  induction hits with
  | nil => intro entries _ _ hbound e; exact hbound e
  | cons a rest ih =>
    intro entries hsorted hle hbound e
    rw [List.pairwise_cons] at hsorted
    have hlea : ∀ x ∈ entries, x.1 ≤ a.1 :=
      fun x hx => hle x hx a (List.mem_cons_self a rest)
    unfold runHits
    refine ih (movingWindowHit limit entries a.1 a.2).2 hsorted.2 ?_ ?_ e
    · intro x hx b hb
      rcases movingWindowHit_mem hx with rfl | hxold
      · exact hsorted.1 b hb
      · exact Nat.le_trans (hlea x hxold) (hsorted.1 b hb)
    · exact movingWindowHit_bound hlea hbound

/-- C4 (amended): the moving-window storage itself never records more
than `limit` cost-weight in any rolling 60-second window — for every
time-ordered interleaving of hits from arbitrarily many callers, every
window `e` of the resulting storage is within the limit — and the
check is work-conserving: a caller always receives a proceed time no
earlier than its arrival (delayed, never dropped or failed), and an
admitted caller proceeds immediately.  However (see the counterexample)
a caller whose hit fails proceeds after sleeping without re-hitting the
window, so the number of callers that proceed inside a rolling window can
exceed the limit. -/
theorem rate_limiter_amended (limit : Nat) (hits : List (Nat × Nat))
    (hsorted : hits.Pairwise (fun a b => a.1 ≤ b.1)) :
    (∀ e, windowCost (runHits limit hits []) e ≤ limit) ∧
    (∀ entries now, now ≤ (check_rate_limit_requests limit entries now).1) ∧
    (∀ entries now, (movingWindowHit limit entries now 1).1 = true →
      (check_rate_limit_requests limit entries now).1 = now) := by
  refine ⟨?_, ?_, ?_⟩
  · exact runHits_bound limit hits [] hsorted
      (fun x hx => absurd hx (List.not_mem_nil x))
      (fun e => by unfold windowCost; exact Nat.le_refl 0 |>.trans (Nat.zero_le _))
  · intro entries now
    unfold check_rate_limit_requests
    by_cases hhit : (movingWindowHit limit entries now 1).1 = true
    · rw [if_pos hhit]
    · rw [if_neg hhit]
      exact Nat.le_max_left _ _
  · intro entries now hhit
    unfold check_rate_limit_requests
    rw [if_pos hhit]

/-- Witness for C4: a concrete sorted interleaving of three hits under
`tokens_per_minute = 2`; every rolling window of the resulting storage is
within the limit and the check is work-conserving. -/
theorem rate_limiter_amended_witness :
    (∀ e, windowCost (runHits 2 [(0, 1), (30, 1), (61, 1)] []) e ≤ 2) ∧
    (∀ entries now, now ≤ (check_rate_limit_requests 2 entries now).1) ∧
    (∀ entries now, (movingWindowHit 2 entries now 1).1 = true →
      (check_rate_limit_requests 2 entries now).1 = now) :=
  rate_limiter_amended 2 [(0, 1), (30, 1), (61, 1)] (by decide)

end Luma
